import Mathlib

/-
  Verification of farewall-xata-lite (a Go tool migrating a Xata-hosted
  PostgreSQL database into a plain PostgreSQL server) against its
  natural-language specification.

  The development shallowly embeds the pure/algorithmic content of
  src/main.go: the column/table schema model, the per-column sanitizer
  (the two rules inside introspectSchema), the DDL text builder of
  createSchema, the per-table data-copy loop of copyData (with the
  external database connections modelled as explicit fallible state),
  the ProgressBarRows cursor decorator, and the joinStrings helper.
-/

namespace Farewall

/-! ## Strings: Go helpers

`contains` embeds Go strings.Contains (substring test) via the
character-list view; `joinStrings` embeds the joinStrings helper of
main.go (res := strs[0]; then res += sep + strs[i]).  -/

/-- Embeds Go strings.Contains: does sub occur as a contiguous substring
of s?  Implemented over the character list: some tail of s has sub
as a prefix. -/
def containsSub (s sub : String) : Bool :=
  s.data.tails.any (fun t => sub.data.isPrefixOf t)

/-- Embeds joinStrings from main.go: empty list gives the empty string,
otherwise start from the first element and fold the separator in front
of each later element. -/
def joinStrings (strs : List String) (sep : String) : String :=
  match strs with
  | [] => ""
  | s :: rest => rest.foldl (fun acc x => acc ++ sep ++ x) s

/-- Declarative separator join used as the specification-side view of
joinStrings and of the comma logic in createSchema. -/
def joinSep (sep : String) : List String → String
  | [] => ""
  | [s] => s
  | s :: rest => s ++ sep ++ joinSep sep rest

/-! ## Data model (struct Column, struct Table in main.go) -/

/-- Embeds struct Column of main.go: Name, DataType, IsNullable
(the strings NO / YES as assigned from the attnotnull flag), and the
optional Default expression text (a Go *string). -/
structure Column where
  Name : String
  DataType : String
  IsNullable : String
  Default : Option String
deriving Repr, DecidableEq

/-- Embeds struct Table of main.go. -/
structure Table where
  Name : String
  Columns : List Column
  PrimaryKey : List String
deriving Repr, DecidableEq

/-- Embeds the notNull-to-IsNullable assignment in introspectSchema:
if notNull then NO else YES. -/
def nullableString (notNull : Bool) : String :=
  if notNull then "NO" else "YES"

/-! ## Type/Default Sanitizer (the two rules inside introspectSchema) -/

/-- Embeds sanitizer rule 1 of introspectSchema: a default whose text
references xata_private or contains a ::xata_ cast is dropped. -/
def rule1 (c : Column) : Column :=
  match c.Default with
  | some d =>
      if containsSub d "xata_private" || containsSub d "::xata_" then
        { c with Default := none }
      else c
  | none => c

/-- Embeds Go strings.HasPrefix over the character-list view: p is a
leading substring of s. -/
def hasPrefixStr (s p : String) : Bool :=
  p.data.isPrefixOf s.data

/-- Embeds the integer-family test of introspectSchema:
strings.HasPrefix(DataType, "integer") or DataType == "int4". -/
def isIntegerFamily (ty : String) : Bool :=
  hasPrefixStr ty "integer" || ty == "int4"

/-- Embeds the big-integer-family test of introspectSchema:
strings.HasPrefix(DataType, "bigint") or DataType == "int8". -/
def isBigintFamily (ty : String) : Bool :=
  hasPrefixStr ty "bigint" || ty == "int8"

/-- Embeds sanitizer rule 2 of introspectSchema: a surviving default
containing a nextval( call turns an integer-family column into SERIAL
(dropping the default) and a bigint-family column into BIGSERIAL
(dropping the default); any other type is left untouched. -/
def rule2 (c : Column) : Column :=
  match c.Default with
  | some d =>
      if containsSub d "nextval(" then
        if isIntegerFamily c.DataType then
          { c with DataType := "SERIAL", Default := none }
        else if isBigintFamily c.DataType then
          { c with DataType := "BIGSERIAL", Default := none }
        else c
      else c
  | none => c

/-- The sanitizer as applied per column in introspectSchema: rule 1
runs first, rule 2 on its result (the Go code mutates c in this
order). -/
def sanitize (c : Column) : Column :=
  rule2 (rule1 c)

/-- The column list of a table is built by appending the sanitized
columns in catalog order (the cRows loop of introspectSchema). -/
def sanitizeColumns (cols : List Column) : List Column :=
  cols.map sanitize

/-! ## Schema Writer (createSchema in main.go) -/

/-- Identifier quoting as performed throughout main.go: the name is
wrapped in double quotes verbatim, with no escaping of embedded
quote characters. -/
def quoteIdent (s : String) : String :=
  "\"" ++ s ++ "\""

/-- The text appended for one column in the createSchema loop body:
quoted name, space, type, then NOT NULL when IsNullable is NO, then
DEFAULT expr when a default is present. -/
def columnEntry (c : Column) : String :=
  "\"" ++ c.Name ++ "\" " ++ c.DataType
    ++ (if c.IsNullable == "NO" then " NOT NULL" else "")
    ++ (match c.Default with
        | some d => " DEFAULT " ++ d
        | none => "")

/-- Embeds the createSchema column loop: each column entry is followed
by a comma-space separator exactly when it is not the last column
(the Go test i < len(t.Columns)-1). -/
def columnsSQL : List Column → String
  | [] => ""
  | [c] => columnEntry c
  | c :: rest => columnEntry c ++ ", " ++ columnsSQL rest

/-- Embeds the primary-key column list loop of createSchema: quoted
key columns separated by comma-space. -/
def pkColsSQL : List String → String
  | [] => ""
  | [p] => "\"" ++ p ++ "\""
  | p :: rest => "\"" ++ p ++ "\"" ++ ", " ++ pkColsSQL rest

/-- Embeds the PRIMARY KEY branch of createSchema: appended only when
len(t.PrimaryKey) > 0. -/
def pkClause (pk : List String) : String :=
  if pk.length > 0 then ", PRIMARY KEY (" ++ pkColsSQL pk ++ ")" else ""

/-- Embeds the CREATE TABLE statement text built by createSchema. -/
def createTableSQL (t : Table) : String :=
  "CREATE TABLE \"" ++ t.Name ++ "\" (" ++ columnsSQL t.Columns
    ++ pkClause t.PrimaryKey ++ ")"

/-- Embeds the DROP statement issued by createSchema before each
create. -/
def dropTableSQL (t : Table) : String :=
  "DROP TABLE IF EXISTS \"" ++ t.Name ++ "\" CASCADE"

/-- The destination schema resulting from createSchema over the full
snapshot: each table is dropped then created, so after the schema
phase every snapshot table is present with its generated DDL. -/
def schemaAfter (tables : List Table) : List (String × String) :=
  tables.map (fun t => (t.Name, createTableSQL t))

/-! ## Row Streamer (copyData in main.go)

The two live connections are external collaborators; they are modelled
as explicit data.  A source row assigns a value (possibly SQL NULL,
hence Option) to each column name; a source table is its row list plus
fault injection points for the count query and the row query, which in
the real system are connection failures.  The destination bulk loader
(pgx CopyFrom) either accepts the whole stream or fails after pushing
some number of rows; copyData itself performs no rollback and no
retry, so whatever the collaborator kept is retained. -/

/-- One source row: an association from column name to cell value. -/
structure SrcRow where
  cells : List (String × String)
deriving Repr, DecidableEq

/-- Reading a named cell from a source row; a column absent from the
row reads as SQL NULL (none). -/
def SrcRow.get (r : SrcRow) (col : String) : Option String :=
  (r.cells.find? (fun p => p.1 == col)).map (fun p => p.2)

/-- One source table with its fault injection points. -/
structure SrcTable where
  rows : List SrcRow
  countErr : Option String
  queryErr : Option String
deriving Repr, DecidableEq

/-- The source database: tables by name. -/
structure SrcDB where
  tables : List (String × SrcTable)
deriving Repr, DecidableEq

/-- Look a source table up by name; an unknown name behaves as an
empty, healthy table. -/
def SrcDB.findTable (db : SrcDB) (name : String) : SrcTable :=
  match db.tables.find? (fun p => p.1 == name) with
  | some p => p.2
  | none => ⟨[], none, none⟩

/-- Outcome of the destination bulk load for one table: full success,
or failure after k rows were pushed. -/
inductive CopyOutcome where
  | ok : CopyOutcome
  | failAfter : Nat → String → CopyOutcome
deriving Repr, DecidableEq

/-- The destination bulk loader behaviour: outcome by table name
(unlisted tables accept the stream). -/
structure DestBehavior where
  outcomes : List (String × CopyOutcome)
deriving Repr, DecidableEq

def DestBehavior.outcomeFor (d : DestBehavior) (name : String) : CopyOutcome :=
  match d.outcomes.find? (fun p => p.1 == name) with
  | some p => p.2
  | none => CopyOutcome.ok

/-- One bulk-load invocation as received by the destination: table
name, declared column list, and the rows actually pushed. -/
structure CopyCall where
  table : String
  cols : List String
  rows : List (List (Option String))
deriving Repr, DecidableEq

/-- Observable actions copyData performs against the two connections. -/
inductive Event where
  | countQuery : String → Event
  | openCursor : String → String → Event
  | copyFrom : CopyCall → Event
deriving Repr, DecidableEq

/-- The SELECT issued by copyData for one table: the declared columns,
each quoted, in declared order — built with joinStrings exactly as in
main.go. -/
def selectSQL (t : Table) : String :=
  "SELECT " ++ joinStrings (t.Columns.map (fun c => "\"" ++ c.Name ++ "\"")) ", "
    ++ " FROM \"" ++ t.Name ++ "\""

/-- SQL SELECT col-list semantics on the model: each source row is
projected to the requested columns in the requested order. -/
def projectRows (cols : List Column) (rows : List SrcRow) : List (List (Option String)) :=
  rows.map (fun r => cols.map (fun c => r.get c.Name))

/-- Embeds the body of the copyData loop for a single table: count
query (errors wrapped naming the table); zero count skips the table
with no cursor and no write; otherwise the cursor is opened with
selectSQL and the stream is handed to the destination bulk loader,
whose failure is wrapped naming the table.  Returns the events
performed and ok or the wrapped error. -/
def copyTable (src : SrcDB) (dst : DestBehavior) (t : Table) :
    List Event × Except String Unit :=
  let st := src.findTable t.Name
  match st.countErr with
  | some e =>
      ([Event.countQuery t.Name],
       Except.error ("failed to get count for table " ++ t.Name ++ ": " ++ e))
  | none =>
      if st.rows.length == 0 then
        ([Event.countQuery t.Name], Except.ok ())
      else
        match st.queryErr with
        | some e =>
            ([Event.countQuery t.Name, Event.openCursor t.Name (selectSQL t)],
             Except.error ("failed to query rows from " ++ t.Name ++ ": " ++ e))
        | none =>
            let pushed := projectRows t.Columns st.rows
            match dst.outcomeFor t.Name with
            | CopyOutcome.ok =>
                ([Event.countQuery t.Name,
                  Event.openCursor t.Name (selectSQL t),
                  Event.copyFrom ⟨t.Name, t.Columns.map Column.Name, pushed⟩],
                 Except.ok ())
            | CopyOutcome.failAfter k e =>
                ([Event.countQuery t.Name,
                  Event.openCursor t.Name (selectSQL t),
                  Event.copyFrom ⟨t.Name, t.Columns.map Column.Name, pushed.take k⟩],
                 Except.error ("failed to copy data for table " ++ t.Name ++ ": " ++ e))

/-- Embeds the copyData loop over the snapshot: tables are processed
strictly in order; the first error stops the loop and is returned with
no further table attempted and no compensation of earlier effects. -/
def copyData (src : SrcDB) (dst : DestBehavior) : List Table → List Event × Except String Unit
  | [] => ([], Except.ok ())
  | t :: rest =>
      match copyTable src dst t with
      | (evs, Except.error e) => (evs, Except.error e)
      | (evs, Except.ok _) =>
          let r := copyData src dst rest
          (evs ++ r.1, r.2)

/-- Embeds the data-phase part of migrate: createSchema has already
produced the destination schema for every table (phase barrier), then
copyData runs; its error is wrapped by migrate and propagated with no
recovery. -/
def migrateData (src : SrcDB) (dst : DestBehavior) (tables : List Table) :
    List (String × String) × List Event × Except String Unit :=
  let r := copyData src dst tables
  match r.2 with
  | Except.error e => (schemaAfter tables, r.1, Except.error ("failed to copy data: " ++ e))
  | Except.ok _ => (schemaAfter tables, r.1, Except.ok ())

/-! ## ProgressBarRows (the cursor decorator in main.go)

pgx.Rows is modelled as the list of rows still to be delivered plus
the row the cursor currently stands on; Next advances to the first
pending row when one exists.  The progress bar is its counter.
ProgressBarRows holds the inner cursor and the bar, exactly as the Go
struct embeds pgx.Rows and points to the bar; every capability other
than Next belongs to the inner cursor (modelled by the wrapper state
keeping the inner cursor as a component). -/

/-- The underlying row cursor: pending rows and the current row. -/
structure Cursor where
  pending : List (List (Option String))
  current : Option (List (Option String))
deriving Repr, DecidableEq

/-- Advance of the underlying cursor: true and step onto the next row
when one is pending, false otherwise. -/
def Cursor.next (c : Cursor) : Bool × Cursor :=
  match c.pending with
  | [] => (false, { c with current := none })
  | r :: rest => (true, ⟨rest, some r⟩)

/-- The progress bar: its row counter.  Add embeds Bar.Add. -/
structure Bar where
  count : Nat
deriving Repr, DecidableEq

def Bar.add (b : Bar) (n : Nat) : Bar :=
  ⟨b.count + n⟩

/-- Embeds struct ProgressBarRows of main.go: the embedded pgx.Rows
and the bar pointer. -/
structure ProgressBarRows where
  Rows : Cursor
  Bar : Bar
deriving Repr, DecidableEq

/-- Embeds the Next method of ProgressBarRows: delegate to the inner
Next of the inner cursor; on true add one to the bar and return true, otherwise
return false. -/
def ProgressBarRows.next (r : ProgressBarRows) : Bool × ProgressBarRows :=
  match r.Rows.next with
  | (true, inner) => (true, ⟨inner, r.Bar.add 1⟩)
  | (false, inner) => (false, ⟨inner, r.Bar⟩)

/-- Repeated advancing of the wrapper, as CopyFrom drives it. -/
def iterateNext : Nat → ProgressBarRows → ProgressBarRows
  | 0, r => r
  | n + 1, r => iterateNext n (r.next).2

/-! ## Lazy bulk-load stream

Modelled from the spec: the destination bulk-load sink (pgx CopyFrom)
is an external collaborator, not code of this repository; per the
spec it pulls rows lazily from the source cursor — fetch one row,
forward it to the destination, only then fetch the next.  The trace
of that interaction is made explicit so the one-row memory bound is a
statement about every prefix of the trace. -/

inductive StreamEvent where
  | fetch : List (Option String) → StreamEvent
  | push : List (Option String) → StreamEvent
deriving Repr, DecidableEq

/-- The interaction trace of the lazy pull loop over a row stream. -/
def streamTrace : List (List (Option String)) → List StreamEvent
  | [] => []
  | r :: rest => StreamEvent.fetch r :: StreamEvent.push r :: streamTrace rest

/-- Number of source fetches in a trace fragment. -/
def fetchCount (l : List StreamEvent) : Nat :=
  (l.filter (fun e => match e with | StreamEvent.fetch _ => true | _ => false)).length

/-- Number of destination pushes in a trace fragment. -/
def pushCount (l : List StreamEvent) : Nat :=
  (l.filter (fun e => match e with | StreamEvent.push _ => true | _ => false)).length

/-- The rows the destination received, in order. -/
def pushedRows (l : List StreamEvent) : List (List (Option String)) :=
  l.filterMap (fun e => match e with | StreamEvent.push r => some r | _ => none)

/-! ## Specification-side (declarative) views of the emitted DDL -/

/-- The declarative reading, per the specification, of one column clause: quoted name,
type, NOT NULL exactly when nullability is NO, DEFAULT exactly when a
default expression is present. -/
def specColumnClause (c : Column) : String :=
  quoteIdent c.Name ++ " " ++ c.DataType
    ++ (if c.IsNullable = "NO" then " NOT NULL" else "")
    ++ (match c.Default with
        | some d => " DEFAULT " ++ d
        | none => "")

/-- The declarative reading, per the specification, of the primary-key clause: absent for
an empty key, otherwise one PRIMARY KEY clause listing the quoted key
columns in captured order. -/
def specPkClause (pk : List String) : String :=
  match pk with
  | [] => ""
  | _ => ", PRIMARY KEY (" ++ joinSep ", " (pk.map quoteIdent) ++ ")"

/-! ## Helper lemmas -/

theorem foldl_sep (sep : String) (l : List String) :
    ∀ a b : String,
      l.foldl (fun acc x => acc ++ sep ++ x) (a ++ b)
        = a ++ l.foldl (fun acc x => acc ++ sep ++ x) b := by
  induction l with
  | nil => intro a b; rfl
  | cons x xs ih =>
      intro a b
      simp only [List.foldl]
      have h1 : a ++ b ++ sep ++ x = a ++ (b ++ sep ++ x) := by
        simp [String.append_assoc]
      rw [h1, ih]

theorem joinStrings_eq_joinSep (sep : String) (l : List String) :
    joinStrings l sep = joinSep sep l := by
  match l with
  | [] => rfl
  | s :: rest =>
    induction rest generalizing s with
    | nil => rfl
    | cons x xs ih =>
        show List.foldl _ s (x :: xs) = joinSep sep (s :: x :: xs)
        simp only [List.foldl]
        have h := foldl_sep sep xs (s ++ sep) x
        rw [h]
        have ih2 : xs.foldl (fun acc y => acc ++ sep ++ y) x = joinSep sep (x :: xs) := ih x
        rw [ih2]
        simp [joinSep, String.append_assoc]

theorem columnsSQL_eq_joinSep (cols : List Column) :
    columnsSQL cols = joinSep ", " (cols.map columnEntry) := by
  induction cols with
  | nil => rfl
  | cons c rest ih =>
      cases rest with
      | nil => rfl
      | cons c2 rest2 =>
          show columnEntry c ++ ", " ++ columnsSQL (c2 :: rest2) = _
          rw [ih]
          rfl

theorem pkColsSQL_eq_joinSep (pk : List String) :
    pkColsSQL pk = joinSep ", " (pk.map quoteIdent) := by
  induction pk with
  | nil => rfl
  | cons p rest ih =>
      cases rest with
      | nil => rfl
      | cons p2 rest2 =>
          show "\"" ++ p ++ "\"" ++ ", " ++ pkColsSQL (p2 :: rest2) = _
          rw [ih]
          rfl

theorem columnEntry_eq_spec (c : Column) :
    columnEntry c = specColumnClause c := by
  simp only [columnEntry, specColumnClause, quoteIdent]
  have h1 : ("\"" : String) ++ c.Name ++ "\" " = "\"" ++ c.Name ++ "\"" ++ " " := by
    have : ("\" " : String) = "\"" ++ " " := rfl
    rw [this, ← String.append_assoc]
  rw [h1]
  by_cases h : c.IsNullable = "NO"
  · simp [h]
  · have hb : (c.IsNullable == "NO") = false := by
      simp [h]
    simp [h, hb]

theorem rule1_dataType (c : Column) : (rule1 c).DataType = c.DataType := by
  cases hc : c.Default <;> simp [rule1, hc, apply_ite]

theorem rule1_name (c : Column) : (rule1 c).Name = c.Name := by
  cases hc : c.Default <;> simp [rule1, hc, apply_ite]

theorem rule1_nullable (c : Column) : (rule1 c).IsNullable = c.IsNullable := by
  cases hc : c.Default <;> simp [rule1, hc, apply_ite]

theorem rule2_name (c : Column) : (rule2 c).Name = c.Name := by
  cases hD : c.Default with
  | none => simp [rule2, hD]
  | some d =>
      simp only [rule2, hD]
      by_cases h1 : containsSub d "nextval(" = true
      · simp only [if_pos h1]
        by_cases h2 : isIntegerFamily c.DataType = true
        · simp [if_pos h2]
        · simp only [if_neg h2]
          by_cases h3 : isBigintFamily c.DataType = true
          · simp [if_pos h3]
          · simp [if_neg h3]
      · simp [if_neg h1]

theorem rule2_nullable (c : Column) : (rule2 c).IsNullable = c.IsNullable := by
  cases hD : c.Default with
  | none => simp [rule2, hD]
  | some d =>
      simp only [rule2, hD]
      by_cases h1 : containsSub d "nextval(" = true
      · simp only [if_pos h1]
        by_cases h2 : isIntegerFamily c.DataType = true
        · simp [if_pos h2]
        · simp only [if_neg h2]
          by_cases h3 : isBigintFamily c.DataType = true
          · simp [if_pos h3]
          · simp [if_neg h3]
      · simp [if_neg h1]

theorem rule1_default_none (c : Column) (h : c.Default = none) :
    (rule1 c).Default = none := by
  simp [rule1, h]

theorem rule2_default_none (c : Column) (h : c.Default = none) :
    (rule2 c).Default = none := by
  simp [rule2, h]

theorem pkClause_eq_spec (pk : List String) : pkClause pk = specPkClause pk := by
  cases pk with
  | nil => rfl
  | cons p rest =>
      simp only [pkClause, specPkClause]
      rw [pkColsSQL_eq_joinSep]
      simp

theorem createTableSQL_shape (t : Table) :
    createTableSQL t =
      "CREATE TABLE " ++ quoteIdent t.Name ++ " ("
        ++ joinSep ", " (t.Columns.map specColumnClause)
        ++ specPkClause t.PrimaryKey ++ ")" := by
  have hfun : columnEntry = specColumnClause := funext columnEntry_eq_spec
  simp only [createTableSQL, quoteIdent]
  rw [columnsSQL_eq_joinSep, hfun, pkClause_eq_spec]
  have h1 : ("CREATE TABLE \"" : String) = "CREATE TABLE " ++ "\"" := rfl
  have h2 : ("\" (" : String) = "\"" ++ " (" := rfl
  rw [h1, h2]
  simp only [String.append_assoc]

/-! ## Claims -/

/-- Claim C2: sanitizer auto-increment rule with ordering.  For a
default surviving rule 1 that contains a sequence-next-value call, an
integer-family type becomes SERIAL with the default discarded, a
big-integer-family type becomes BIGSERIAL with the default discarded,
and any other type leaves both type and default untouched; a default
discarded by rule 1 never triggers the rewrite (and rule 1 itself
never changes the type), so rule 2 only fires on what survives
rule 1. -/
theorem c2_serial_rewrite (c : Column) :
    ((rule1 c).Default = none → sanitize c = rule1 c) ∧
    (∀ d, (rule1 c).Default = some d → containsSub d "nextval(" = true →
      (isIntegerFamily (rule1 c).DataType = true →
        sanitize c = { rule1 c with DataType := "SERIAL", Default := none }) ∧
      (isIntegerFamily (rule1 c).DataType = false →
        isBigintFamily (rule1 c).DataType = true →
        sanitize c = { rule1 c with DataType := "BIGSERIAL", Default := none }) ∧
      (isIntegerFamily (rule1 c).DataType = false →
        isBigintFamily (rule1 c).DataType = false →
        sanitize c = rule1 c)) ∧
    (∀ d, (rule1 c).Default = some d → containsSub d "nextval(" = false →
      sanitize c = rule1 c) ∧
    (rule1 c).DataType = c.DataType := by
  refine ⟨?_, ?_, ?_, rule1_dataType c⟩
  · intro h
    simp [sanitize, rule2, h]
  · intro d hd hn
    refine ⟨?_, ?_, ?_⟩
    · intro hint
      simp [sanitize, rule2, hd, hn, hint]
    · intro hint hbig
      simp [sanitize, rule2, hd, hn, hint, hbig]
    · intro hint hbig
      simp [sanitize, rule2, hd, hn, hint, hbig]
  · intro d hd hn
    simp [sanitize, rule2, hd, hn]

/-- Witness for C2: a concrete integer column whose default calls
nextval is rewritten to SERIAL with no default, via the claim theorem
specialized at that column. -/
theorem c2_serial_rewrite_witness :
    sanitize ⟨"id", "integer", "NO", some "nextval(seq)"⟩
      = ⟨"id", "SERIAL", "NO", none⟩ := by
  have h := ((c2_serial_rewrite ⟨"id", "integer", "NO", some "nextval(seq)"⟩).2.1
      "nextval(seq)" (by decide) (by decide)).1 (by decide)
  rw [h]
  decide

/-- Claim C3: sanitizer private-artifact rule.  A default referencing
xata_private or containing a ::xata_ cast is dropped by rule 1 (and
nothing else of the column changes); every other default, and every
absent default, passes rule 1 unchanged. -/
theorem c3_private_default (c : Column) :
    (∀ d, c.Default = some d →
      (containsSub d "xata_private" || containsSub d "::xata_") = true →
      rule1 c = { c with Default := none }) ∧
    (∀ d, c.Default = some d →
      (containsSub d "xata_private" || containsSub d "::xata_") = false →
      rule1 c = c) ∧
    (c.Default = none → rule1 c = c) := by
  refine ⟨?_, ?_, ?_⟩
  · intro d hd hm
    simp [rule1, hd, hm]
  · intro d hd hm
    simp [rule1, hd, hm]
  · intro h
    simp [rule1, h]

/-- Witness for C3: a default mentioning xata_private is dropped and a
plain default is preserved, via the claim theorem specialized at two
concrete columns. -/
theorem c3_private_default_witness :
    rule1 ⟨"note", "text", "YES", some "xata_private.f()"⟩
      = ⟨"note", "text", "YES", none⟩ ∧
    rule1 ⟨"n", "integer", "NO", some "0"⟩ = ⟨"n", "integer", "NO", some "0"⟩ := by
  constructor
  · have h := (c3_private_default ⟨"note", "text", "YES", some "xata_private.f()"⟩).1
      "xata_private.f()" (by decide) (by decide)
    rw [h]
  · exact (c3_private_default ⟨"n", "integer", "NO", some "0"⟩).2.1
      "0" (by decide) (by decide)

/-- Claim C10: sanitizer frame property.  Sanitization changes at most
the data type and the default: name and nullability are untouched, a
column with no default never gains one, and per-table sanitization is
a positional map, so the column count and the position of every column are
preserved. -/
theorem c10_sanitizer_frame :
    (∀ c : Column, (sanitize c).Name = c.Name ∧
      (sanitize c).IsNullable = c.IsNullable ∧
      (c.Default = none → (sanitize c).Default = none)) ∧
    (∀ cols : List Column, (sanitizeColumns cols).length = cols.length) ∧
    (∀ cols : List Column, ∀ i : Nat, ∀ h1 : i < cols.length,
      ∀ h2 : i < (sanitizeColumns cols).length,
      (sanitizeColumns cols).get ⟨i, h2⟩ = sanitize (cols.get ⟨i, h1⟩)) := by
  refine ⟨?_, ?_, ?_⟩
  · intro c
    refine ⟨?_, ?_, ?_⟩
    · rw [sanitize, rule2_name, rule1_name]
    · rw [sanitize, rule2_nullable, rule1_nullable]
    · intro h
      exact rule2_default_none _ (rule1_default_none _ h)
  · intro cols
    simp [sanitizeColumns]
  · intro cols i h1 h2
    simp [sanitizeColumns]

/-- Witness for C10: the frame property at a concrete column and a
concrete one-column table, via the claim theorem. -/
theorem c10_sanitizer_frame_witness :
    (sanitize ⟨"note", "text", "YES", none⟩).Default = none ∧
    (sanitizeColumns [⟨"id", "int4", "NO", some "nextval(q)"⟩]).get ⟨0, by decide⟩
      = sanitize ⟨"id", "int4", "NO", some "nextval(q)"⟩ := by
  constructor
  · exact (c10_sanitizer_frame.1 ⟨"note", "text", "YES", none⟩).2.2 rfl
  · exact c10_sanitizer_frame.2.2 [⟨"id", "int4", "NO", some "nextval(q)"⟩]
      0 (by decide) (by decide)

/-- Claim C5: Schema Writer DDL generation.  The emitted create-table
statement is exactly the quoted table name followed by every column
clause in snapshot order separated by comma-space, each clause being
the quoted column name, its (possibly rewritten) type, NOT NULL
exactly when nullability is NO, and DEFAULT exactly when a default is
present, then the primary-key clause; identifiers are wrapped in
double quotes verbatim with no escaping of embedded quote characters,
and the NO nullability marker is assigned exactly when the catalog
not-null flag is set. -/
theorem c5_ddl_generation (t : Table) :
    createTableSQL t =
      "CREATE TABLE " ++ quoteIdent t.Name ++ " ("
        ++ joinSep ", " (t.Columns.map specColumnClause)
        ++ specPkClause t.PrimaryKey ++ ")" ∧
    (∀ s, quoteIdent s = "\"" ++ s ++ "\"") ∧
    (∀ b, nullableString b = "NO" ↔ b = true) := by
  refine ⟨createTableSQL_shape t, fun s => rfl, ?_⟩
  intro b
  cases b <;> simp [nullableString]

/-- Claim C6: primary key fidelity in the emitted DDL.  An empty key
yields a create statement with no PRIMARY KEY clause; a non-empty key
appends exactly one PRIMARY KEY clause listing the identical key
columns, quoted, in their captured order. -/
theorem c6_primary_key (t : Table) :
    (t.PrimaryKey = [] →
      createTableSQL t =
        "CREATE TABLE " ++ quoteIdent t.Name ++ " ("
          ++ joinSep ", " (t.Columns.map specColumnClause) ++ ")") ∧
    (t.PrimaryKey ≠ [] →
      createTableSQL t =
        "CREATE TABLE " ++ quoteIdent t.Name ++ " ("
          ++ joinSep ", " (t.Columns.map specColumnClause)
          ++ (", PRIMARY KEY (" ++ joinSep ", " (t.PrimaryKey.map quoteIdent) ++ ")")
          ++ ")") := by
  constructor
  · intro h
    rw [createTableSQL_shape t, h]
    simp [specPkClause]
  · intro h
    rw [createTableSQL_shape t]
    cases hpk : t.PrimaryKey with
    | nil => exact absurd hpk h
    | cons p rest => simp [specPkClause]

/-- Witness for C6: the claim theorem at a concrete table without a
primary key and a concrete table with one. -/
theorem c6_primary_key_witness :
    createTableSQL ⟨"logs", [⟨"msg", "text", "YES", none⟩], []⟩
      = "CREATE TABLE " ++ quoteIdent "logs" ++ " ("
          ++ joinSep ", " ([(⟨"msg", "text", "YES", none⟩ : Column)].map specColumnClause)
          ++ ")" ∧
    createTableSQL ⟨"users", [⟨"id", "SERIAL", "NO", none⟩], ["id"]⟩
      = "CREATE TABLE " ++ quoteIdent "users" ++ " ("
          ++ joinSep ", " ([(⟨"id", "SERIAL", "NO", none⟩ : Column)].map specColumnClause)
          ++ (", PRIMARY KEY (" ++ joinSep ", " (["id"].map quoteIdent) ++ ")")
          ++ ")" :=
  ⟨(c6_primary_key ⟨"logs", [⟨"msg", "text", "YES", none⟩], []⟩).1 rfl,
   (c6_primary_key ⟨"users", [⟨"id", "SERIAL", "NO", none⟩], ["id"]⟩).2 (by decide)⟩

theorem containsSub_middle (a b c : String) :
    containsSub (a ++ (b ++ c)) b = true := by
  have hd : (a ++ (b ++ c)).data = a.data ++ (b.data ++ c.data) := by
    simp [String.data_append]
  have hmem : b.data ++ c.data ∈ (a ++ (b ++ c)).data.tails := by
    rw [List.mem_tails, hd]
    exact List.suffix_append a.data (b.data ++ c.data)
  have hpre : b.data.isPrefixOf (b.data ++ c.data) = true := by
    rw [ List.isPrefixOf_iff_prefix]
    exact List.prefix_append b.data c.data
  simp only [containsSub]
  exact List.any_of_mem hmem hpre

theorem containsSub_wrap (a b c d : String) :
    containsSub (a ++ b ++ c ++ d) b = true := by
  have h : a ++ b ++ c ++ d = a ++ (b ++ (c ++ d)) := by
    simp [String.append_assoc]
  rw [h]
  exact containsSub_middle a b (c ++ d)

theorem selectSQL_shape (t : Table) :
    selectSQL t
      = "SELECT " ++ joinSep ", " (t.Columns.map (fun c => quoteIdent c.Name))
        ++ (" FROM " ++ quoteIdent t.Name) := by
  simp only [selectSQL, quoteIdent]
  rw [joinStrings_eq_joinSep]
  have h1 : (" FROM \"" : String) = " FROM " ++ "\"" := rfl
  rw [h1]
  simp only [String.append_assoc]

theorem copyTable_error_names_table (src : SrcDB) (dst : DestBehavior) (t : Table)
    (evs : List Event) (msg : String)
    (h : copyTable src dst t = (evs, Except.error msg)) :
    containsSub msg t.Name = true := by
  simp only [copyTable] at h
  cases hc : (src.findTable t.Name).countErr with
  | some e =>
      rw [hc] at h
      simp only [Prod.mk.injEq, Except.error.injEq] at h
      rw [← h.2]
      exact containsSub_wrap "failed to get count for table " t.Name ": " e
  | none =>
      rw [hc] at h
      by_cases hz : ((src.findTable t.Name).rows.length == 0) = true
      · rw [if_pos hz] at h
        simp at h
      · rw [if_neg hz] at h
        cases hq : (src.findTable t.Name).queryErr with
        | some e =>
            rw [hq] at h
            simp only [Prod.mk.injEq, Except.error.injEq] at h
            rw [← h.2]
            exact containsSub_wrap "failed to query rows from " t.Name ": " e
        | none =>
            rw [hq] at h
            cases ho : dst.outcomeFor t.Name with
            | ok =>
                rw [ho] at h
                simp at h
            | failAfter k e =>
                rw [ho] at h
                simp only [Prod.mk.injEq, Except.error.injEq] at h
                rw [← h.2]
                exact containsSub_wrap "failed to copy data for table " t.Name ": " e

theorem copyData_append_ok (src : SrcDB) (dst : DestBehavior)
    (pre rest : List Table) (evs : List Event)
    (hpre : copyData src dst pre = (evs, Except.ok ())) :
    copyData src dst (pre ++ rest)
      = (evs ++ (copyData src dst rest).1, (copyData src dst rest).2) := by
  induction pre generalizing evs with
  | nil =>
      simp only [copyData] at hpre
      injection hpre with h1 h2
      subst h1
      simp
  | cons p ps ih =>
      rcases hp : copyTable src dst p with ⟨evsP, rp⟩
      cases rp with
      | error e =>
          simp only [copyData, hp] at hpre
          simp at hpre
      | ok u =>
          rcases hps : copyData src dst ps with ⟨evsPs, rps⟩
          simp only [copyData, hp, hps] at hpre
          injection hpre with h1 h2
          subst h2
          have hmid := ih evsPs hps
          show copyData src dst (p :: (ps ++ rest)) = _
          simp only [copyData, hp, hmid]
          rw [← h1]
          simp [List.append_assoc]

/-- Claim C1: round-trip of row data.  For a table with a healthy
source and destination and a non-empty row set, the data phase opens
exactly one cursor whose SELECT lists exactly the declared columns,
quoted, in declared order (never star), and hands the destination one
bulk load for the table whose column list is the declared names in
declared order and whose rows are exactly the source rows projected
to those columns: the row count is preserved and row i, column j of
the stream is the value of source row i at declared column j. -/
theorem c1_round_trip (src : SrcDB) (dst : DestBehavior) (t : Table)
    (h1 : (src.findTable t.Name).countErr = none)
    (h2 : (src.findTable t.Name).queryErr = none)
    (h3 : dst.outcomeFor t.Name = CopyOutcome.ok)
    (h4 : (src.findTable t.Name).rows ≠ []) :
    copyTable src dst t =
      ([Event.countQuery t.Name,
        Event.openCursor t.Name
          ("SELECT " ++ joinSep ", " (t.Columns.map (fun c => quoteIdent c.Name))
            ++ (" FROM " ++ quoteIdent t.Name)),
        Event.copyFrom
          ⟨t.Name, t.Columns.map Column.Name,
           projectRows t.Columns (src.findTable t.Name).rows⟩],
       Except.ok ()) ∧
    (projectRows t.Columns (src.findTable t.Name).rows).length
        = (src.findTable t.Name).rows.length ∧
    (∀ i : Nat, ∀ h5 : i < ((src.findTable t.Name).rows).length,
      ∀ h6 : i < (projectRows t.Columns (src.findTable t.Name).rows).length,
      (projectRows t.Columns (src.findTable t.Name).rows).get ⟨i, h6⟩
        = t.Columns.map (fun c => (((src.findTable t.Name).rows).get ⟨i, h5⟩).get c.Name)) := by
  have hz : (((src.findTable t.Name).rows.length == 0) : Bool) = false := by
    simp [List.length_eq_zero, h4]
  refine ⟨?_, by simp [projectRows], ?_⟩
  · simp [copyTable, h1, h2, h3, hz, selectSQL_shape]
  · intro i h5 h6
    simp [projectRows]

/-- Witness for C1: the claim theorem at a concrete two-column table
with one source row. -/
theorem c1_round_trip_witness :
    copyTable ⟨[("u", ⟨[⟨[("id", "1"), ("nm", "a")]⟩], none, none⟩)]⟩ ⟨[]⟩
        ⟨"u", [⟨"id", "integer", "NO", none⟩, ⟨"nm", "text", "YES", none⟩], ["id"]⟩
      = ([Event.countQuery "u",
          Event.openCursor "u"
            ("SELECT "
              ++ joinSep ", "
                  ([(⟨"id", "integer", "NO", none⟩ : Column),
                    ⟨"nm", "text", "YES", none⟩].map (fun c => quoteIdent c.Name))
              ++ (" FROM " ++ quoteIdent "u")),
          Event.copyFrom
            ⟨"u",
             [(⟨"id", "integer", "NO", none⟩ : Column),
              ⟨"nm", "text", "YES", none⟩].map Column.Name,
             projectRows
               [(⟨"id", "integer", "NO", none⟩ : Column), ⟨"nm", "text", "YES", none⟩]
               ((SrcDB.mk [("u", ⟨[⟨[("id", "1"), ("nm", "a")]⟩], none, none⟩)]).findTable
                  "u").rows⟩],
         Except.ok ()) := by
  exact (c1_round_trip ⟨[("u", ⟨[⟨[("id", "1"), ("nm", "a")]⟩], none, none⟩)]⟩ ⟨[]⟩
      ⟨"u", [⟨"id", "integer", "NO", none⟩, ⟨"nm", "text", "YES", none⟩], ["id"]⟩
      (by decide) (by decide) (by decide) (by decide)).1

/-- Claim C4: zero-row skip.  With a healthy count query returning
zero rows, the data phase for that table performs only the count
query — no cursor open, no destination write — and completes as a
normal non-error path, while the table still has its created DDL
entry from the schema phase. -/
theorem c4_zero_row_skip (src : SrcDB) (dst : DestBehavior) (t : Table)
    (tables : List Table)
    (h1 : (src.findTable t.Name).countErr = none)
    (h2 : (src.findTable t.Name).rows = []) :
    copyTable src dst t = ([Event.countQuery t.Name], Except.ok ()) ∧
    (∀ ev ∈ (copyTable src dst t).1,
      (∀ name sql, ev ≠ Event.openCursor name sql) ∧
      (∀ call, ev ≠ Event.copyFrom call)) ∧
    (t ∈ tables → (t.Name, createTableSQL t) ∈ schemaAfter tables) := by
  have hmain : copyTable src dst t = ([Event.countQuery t.Name], Except.ok ()) := by
    simp [copyTable, h1, h2]
  refine ⟨hmain, ?_, ?_⟩
  · intro ev hev
    rw [hmain] at hev
    simp only [List.mem_singleton] at hev
    subst hev
    constructor
    · intro name sql h
      cases h
    · intro call h
      cases h
  · intro ht
    exact List.mem_map_of_mem (fun u => (u.Name, createTableSQL u)) ht

/-- Witness for C4: the claim theorem at a concrete empty table that
is part of the snapshot. -/
theorem c4_zero_row_skip_witness :
    copyTable ⟨[("e", ⟨[], none, none⟩)]⟩ ⟨[]⟩ ⟨"e", [⟨"x", "text", "YES", none⟩], []⟩
      = ([Event.countQuery "e"], Except.ok ()) ∧
    ("e", createTableSQL ⟨"e", [⟨"x", "text", "YES", none⟩], []⟩)
      ∈ schemaAfter [⟨"e", [⟨"x", "text", "YES", none⟩], []⟩] :=
  ⟨(c4_zero_row_skip ⟨[("e", ⟨[], none, none⟩)]⟩ ⟨[]⟩
      ⟨"e", [⟨"x", "text", "YES", none⟩], []⟩
      [⟨"e", [⟨"x", "text", "YES", none⟩], []⟩] rfl rfl).1,
   (c4_zero_row_skip ⟨[("e", ⟨[], none, none⟩)]⟩ ⟨[]⟩
      ⟨"e", [⟨"x", "text", "YES", none⟩], []⟩
      [⟨"e", [⟨"x", "text", "YES", none⟩], []⟩] rfl rfl).2.2 (by decide)⟩

/-- Claim C7: failure isolation and propagation.  If every table
before T succeeds and the transfer of T fails, the whole data phase
returns exactly the events of the successful head tables plus the
events of T itself (so rows pushed for earlier tables are retained and no table
after T is attempted, whatever follows T), the error message names T,
and migrate propagates the wrapped error to the top with no recovery
or retry. -/
theorem c7_failure_isolation (src : SrcDB) (dst : DestBehavior)
    (pre : List Table) (t : Table) (post : List Table)
    (evs evsT : List Event) (msg : String)
    (hpre : copyData src dst pre = (evs, Except.ok ()))
    (ht : copyTable src dst t = (evsT, Except.error msg)) :
    copyData src dst (pre ++ t :: post) = (evs ++ evsT, Except.error msg) ∧
    containsSub msg t.Name = true ∧
    (migrateData src dst (pre ++ t :: post)).2.2
      = Except.error ("failed to copy data: " ++ msg) := by
  have hmain : copyData src dst (pre ++ t :: post) = (evs ++ evsT, Except.error msg) := by
    rw [copyData_append_ok src dst pre (t :: post) evs hpre]
    simp [copyData, ht]
  refine ⟨hmain, copyTable_error_names_table src dst t evsT msg ht, ?_⟩
  simp [migrateData, hmain]

/-- Witness for C7: the claim theorem with an empty prefix, a table
whose count query fails, and one table after it. -/
theorem c7_failure_isolation_witness :
    copyData ⟨[("b", ⟨[], some "boom", none⟩)]⟩ ⟨[]⟩
        ([] ++ (⟨"b", [], []⟩ : Table) :: [⟨"c", [], []⟩])
      = ([] ++ [Event.countQuery "b"],
         Except.error "failed to get count for table b: boom") ∧
    containsSub "failed to get count for table b: boom" "b" = true ∧
    (migrateData ⟨[("b", ⟨[], some "boom", none⟩)]⟩ ⟨[]⟩
        ([] ++ (⟨"b", [], []⟩ : Table) :: [⟨"c", [], []⟩])).2.2
      = Except.error ("failed to copy data: " ++ "failed to get count for table b: boom") :=
  c7_failure_isolation ⟨[("b", ⟨[], some "boom", none⟩)]⟩ ⟨[]⟩ [] ⟨"b", [], []⟩
    [⟨"c", [], []⟩] [] [Event.countQuery "b"]
    "failed to get count for table b: boom" rfl rfl

theorem iterateNext_count (n : Nat) : ∀ r : ProgressBarRows,
    (iterateNext n r).Bar.count = r.Bar.count + min n r.Rows.pending.length := by
  induction n with
  | zero => intro r; simp [iterateNext]
  | succ m ih =>
      intro r
      obtain ⟨⟨pending, cur⟩, ⟨cnt⟩⟩ := r
      cases pending with
      | nil =>
          have hr : (ProgressBarRows.mk ⟨[], cur⟩ ⟨cnt⟩).next
              = (false, ⟨⟨[], none⟩, ⟨cnt⟩⟩) := rfl
          simp only [iterateNext, hr, ih]
          simp
      | cons x xs =>
          have hr : (ProgressBarRows.mk ⟨x :: xs, cur⟩ ⟨cnt⟩).next
              = (true, ⟨⟨xs, some x⟩, ⟨cnt + 1⟩⟩) := rfl
          simp only [iterateNext, hr, ih, List.length_cons]
          omega

/-- Claim C8: progress decorator.  The advance of the wrapper returns
exactly what the advance of the inner cursor returns, leaves the inner
cursor exactly as the inner advance leaves it (composition: every
other capability belongs to the inner cursor), bumps the bar by one
when and only when the inner cursor advanced onto a row, and over any
number of advances the reported count equals the number of rows
advanced, hence is monotonically increasing. -/
theorem c8_progress_decorator (r : ProgressBarRows) :
    (r.next).1 = (r.Rows.next).1 ∧
    (r.next).2.Rows = (r.Rows.next).2 ∧
    (r.next).2.Bar.count = r.Bar.count + (if (r.Rows.next).1 then 1 else 0) ∧
    (∀ n : Nat, (iterateNext n r).Bar.count
        = r.Bar.count + min n r.Rows.pending.length) ∧
    (∀ n : Nat, (iterateNext n r).Bar.count ≤ (iterateNext (n + 1) r).Bar.count) := by
  obtain ⟨⟨pending, cur⟩, ⟨cnt⟩⟩ := r
  refine ⟨?_, ?_, ?_, fun n => iterateNext_count n _, fun n => ?_⟩
  · cases pending <;> rfl
  · cases pending <;> rfl
  · cases pending <;> rfl
  · rw [iterateNext_count n _, iterateNext_count (n + 1) _]
    omega

/-- Claim C9: memory-bounded lazy streaming.  The bulk-load
interaction trace alternates fetch and push (a row is fetched,
forwarded, and only then is the next fetched), so in every prefix of
the trace the number of fetched-but-not-yet-pushed rows is at most
one — peak memory is bounded by one row regardless of table size —
and the rows pushed are exactly the streamed rows, in particular the
projected source rows of a table transfer. -/
theorem c9_lazy_stream :
    (∀ (rows : List (List (Option String))) (n : Nat),
      pushCount ((streamTrace rows).take n) ≤ fetchCount ((streamTrace rows).take n) ∧
      fetchCount ((streamTrace rows).take n)
        ≤ pushCount ((streamTrace rows).take n) + 1) ∧
    (∀ rows : List (List (Option String)), pushedRows (streamTrace rows) = rows) ∧
    (∀ (cols : List Column) (rs : List SrcRow),
      pushedRows (streamTrace (projectRows cols rs)) = projectRows cols rs) := by
  have hcounts : ∀ (rows : List (List (Option String))) (n : Nat),
      pushCount ((streamTrace rows).take n) ≤ fetchCount ((streamTrace rows).take n) ∧
      fetchCount ((streamTrace rows).take n)
        ≤ pushCount ((streamTrace rows).take n) + 1 := by
    intro rows
    induction rows with
    | nil => intro n; simp [streamTrace, pushCount, fetchCount]
    | cons r rest ih =>
        intro n
        match n with
        | 0 => simp [pushCount, fetchCount]
        | 1 => simp [streamTrace, pushCount, fetchCount]
        | Nat.succ (Nat.succ m) =>
            have h := ih m
            simp only [streamTrace, List.take, pushCount, fetchCount,
              List.filter, List.length_cons] at h ⊢
            omega
  have hpushed : ∀ rows : List (List (Option String)),
      pushedRows (streamTrace rows) = rows := by
    intro rows
    induction rows with
    | nil => rfl
    | cons r rest ih =>
        simp only [streamTrace, pushedRows, List.filterMap_cons] at ih ⊢
        simp [ih]
  exact ⟨hcounts, hpushed, fun cols rs => hpushed (projectRows cols rs)⟩

end Farewall
